import Mathlib

/-!
Verification development for the l-command repository (a CLI file/directory
viewer).  The definitions below are shallow embeddings of the Python source:

* `Toml`, `dictGet`, `dictSet` — parsed TOML values and Python `dict`
  association-list semantics (insertion-ordered, keyed lookup/update);
* `HandlerConfig`, `GeneralConfig`, `Config`, `configDefault`,
  `validateHandlerConfig`, `mergeHandlers`, `loadConfigFromDict`
  — `src/l_command/config.py`;
* `HandlerCls`, `handlerMap`, `effPriority`, `enabledHandlers`, `sortDesc`,
  `getHandlers` — `src/l_command/handlers/__init__.py`;
* `binaryCanHandle`, `binaryHandle` — `src/l_command/handlers/binary.py`;
* `splitLines`, `countLines`, `cliMain` — `src/l_command/cli.py`.

Machine integers are modelled as `Int`/`Nat` (Python ints are unbounded),
file bytes as `List Nat`, and fallible operations return `Option`.
-/

namespace LCmd

/-- Parsed TOML values as produced by the Python `tomllib` module.  A TOML table is an
insertion-ordered list of key/value pairs, mirroring a Python `dict`.  The
`float`, `str` and `arr` constructors exist so that wrong-typed configuration
fields can be represented. -/
inductive Toml where
  | bool (b : Bool)
  | int (n : Int)
  | float
  | str (s : String)
  | arr (xs : List Toml)
  | table (kvs : List (String × Toml))

/-- Python `dict.get`: first binding of the key in the association list. -/
def dictGet {β : Type} (d : List (String × β)) (k : String) : Option β :=
  match d with
  | [] => none
  | (k', v) :: rest => if k' = k then some v else dictGet rest k

/-- Python `dict` item assignment: replace the value in place if the key is
present, otherwise append the new binding at the end. -/
def dictSet {β : Type} (d : List (String × β)) (k : String) (v : β) :
    List (String × β) :=
  match d with
  | [] => [(k, v)]
  | (k', v') :: rest =>
      if k' = k then (k, v) :: rest else (k', v') :: dictSet rest k v

/-- `HandlerConfig` dataclass from `src/l_command/config.py`: enabled flag,
optional priority override and an opaque options table.  A Python `bool`
priority is stored through its integer value (`True` is `1`), matching how
every consumer of the field uses it. -/
structure HandlerConfig where
  enabled : Bool := true
  priority : Option Int := none
  options : List (String × Toml) := []

/-- `GeneralConfig` dataclass from `src/l_command/config.py`. -/
structure GeneralConfig where
  version : String := "1.0"

/-- `Config` dataclass from `src/l_command/config.py`. -/
structure Config where
  general : GeneralConfig := {}
  handlers : List (String × HandlerConfig) := []

/-- `Config.default()` from `src/l_command/config.py`: the 12 built-in
handlers, each enabled at its default priority. -/
def configDefault : Config :=
  { general := {},
    handlers :=
      [("directory", { enabled := true, priority := some 100 }),
       ("archive",   { enabled := true, priority := some 80 }),
       ("image",     { enabled := true, priority := some 65 }),
       ("pdf",       { enabled := true, priority := some 60 }),
       ("binary",    { enabled := true, priority := some 60 }),
       ("media",     { enabled := true, priority := some 55 }),
       ("json",      { enabled := true, priority := some 50 }),
       ("xml",       { enabled := true, priority := some 45 }),
       ("csv",       { enabled := true, priority := some 40 }),
       ("markdown",  { enabled := true, priority := some 35 }),
       ("yaml",      { enabled := true, priority := some 30 }),
       ("default",   { enabled := true, priority := some 0 })] }

/-- `validate_handler_config` from `src/l_command/config.py`.  Field by field:
a non-dict entry is rejected as a whole (`None`); `enabled` falls back to
`True` unless it is a bool; `priority` is kept when `isinstance(priority, int)`
holds — in Python that check also accepts `bool` (a subclass of `int`), with
`True` counting as `1` and `False` as `0` — and is otherwise reset to `None`;
`options` falls back to the empty dict unless it is a dict. -/
def validateHandlerConfig (name : String) (data : Toml) : Option HandlerConfig :=
  match data with
  | Toml.table kvs =>
      some { enabled := match (dictGet kvs "enabled").getD (Toml.bool true) with
               | Toml.bool b => b
               | _ => true,
             priority := match dictGet kvs "priority" with
               | some (Toml.int n) => some n
               | some (Toml.bool b) => some (if b then 1 else 0)
               | some _ => none
               | none => none,
             options := match (dictGet kvs "options").getD (Toml.table []) with
               | Toml.table t => t
               | _ => [] }
  | _ => none

/-- Loop body of `load_config_from_dict` over the `[handlers]` table: each
valid entry for a known handler name is merged into the accumulated handler
dict, inheriting the default priority when the override leaves it unset;
invalid entries and unknown names are logged and skipped. -/
def mergeHandlers (acc : List (String × HandlerConfig)) :
    List (String × Toml) → List (String × HandlerConfig)
  | [] => acc
  | (name, hd) :: rest =>
      match validateHandlerConfig name hd with
      | none => mergeHandlers acc rest
      | some hc =>
          match dictGet acc name with
          | some defc =>
              mergeHandlers
                (dictSet acc name
                  { hc with
                    priority := match hc.priority with
                      | none => defc.priority
                      | some n => some n }) rest
          | none => mergeHandlers acc rest

/-- `load_config_from_dict` from `src/l_command/config.py`: start from the
default config, take `general.version` when it is a string, then merge the
`[handlers]` table entry by entry. -/
def loadConfigFromDict (data : List (String × Toml)) : Config :=
  let version := match dictGet data "general" with
    | some (Toml.table g) =>
        match dictGet g "version" with
        | some (Toml.str s) => s
        | _ => configDefault.general.version
    | _ => configDefault.general.version
  let handlers := match dictGet data "handlers" with
    | some (Toml.table hs) => mergeHandlers configDefault.handlers hs
    | _ => configDefault.handlers
  { general := { version := version }, handlers := handlers }

/-- Static handler descriptor: the registry name of the handler together with the
value of its class `priority()` method.  `directory` (100) and `binary` (60)
are read off `handlers/directory.py` and `handlers/binary.py`; the remaining
ten classes are not under `src/` (only their tests are), so their default
priorities are `Modelled from the spec:` default priority table (directory=100,
archive=80, image=65, pdf=60, binary=60, media=55, json=50, xml=45, csv=40,
markdown=35, yaml=30, fallback=0), which coincides with `Config.default()` in
`src/l_command/config.py`. -/
structure HandlerCls where
  name : String
  defaultPriority : Int
deriving DecidableEq

/-- The `handler_map` of `get_handlers` in `src/l_command/handlers/__init__.py`,
in its insertion order (Python dicts preserve insertion order).  The
`get_priority` key function derives the config name of each handler from its class
name; that derivation yields exactly the `name` field stored here. -/
def handlerMap : List HandlerCls :=
  [⟨"directory", 100⟩, ⟨"archive", 80⟩, ⟨"image", 65⟩, ⟨"pdf", 60⟩,
   ⟨"binary", 60⟩, ⟨"media", 55⟩, ⟨"json", 50⟩, ⟨"xml", 45⟩,
   ⟨"csv", 40⟩, ⟨"markdown", 35⟩, ⟨"yaml", 30⟩, ⟨"default", 0⟩]

/-- The `get_priority` key function of `get_handlers`: the configured priority
override when the config has one for this handler, the class default
otherwise. -/
def effPriority (cfg : Config) (h : HandlerCls) : Int :=
  match dictGet cfg.handlers h.name with
  | some hc => hc.priority.getD h.defaultPriority
  | none => h.defaultPriority

/-- The enabled-handler filter loop of `get_handlers`: a handler is kept when
the config has no entry for its name or the entry is enabled. -/
def handlerEnabled (cfg : Config) (h : HandlerCls) : Bool :=
  match dictGet cfg.handlers h.name with
  | some hc => hc.enabled
  | none => true

/-- The `enabled_handlers` list built by `get_handlers`, in static map order. -/
def enabledHandlers (cfg : Config) : List HandlerCls :=
  handlerMap.filter (handlerEnabled cfg)

/-- Insertion step of a stable descending sort: `x` is placed in front of the
first element whose key is not larger than the key of `x`.  Elements skipped on the
way have strictly larger keys, so an element inserted later (i.e. one that
occurred earlier in the input) lands in front of all equal-keyed elements. -/
def insertDesc {α : Type} (key : α → Int) (x : α) : List α → List α
  | [] => [x]
  | y :: ys => if key y ≤ key x then x :: y :: ys else y :: insertDesc key x ys

/-- Stable descending insertion sort, the semantics of the Python call
`sorted(xs, key=key, reverse=True)`: sorted descending by key, and elements
with equal keys keep their input order. -/
def sortDesc {α : Type} (key : α → Int) : List α → List α
  | [] => []
  | x :: xs => insertDesc key x (sortDesc key xs)

/-- `get_handlers` from `src/l_command/handlers/__init__.py` (a `None` config
argument is first replaced by `Config.default()`, i.e. `configDefault`):
filter the static map to the enabled handlers, then stable-sort them by
effective priority, highest first. -/
def getHandlers (cfg : Config) : List HandlerCls :=
  sortDesc (effPriority cfg) (enabledHandlers cfg)

/-- Marking handler `X` as enabled/disabled in a configuration: the existing
entry for `X` (or a fresh all-default entry) with its `enabled` flag set. -/
def setHandlerEnabled (cfg : Config) (X : String) (b : Bool) : Config :=
  let base := (dictGet cfg.handlers X).getD {}
  { cfg with handlers := dictSet cfg.handlers X { base with enabled := b } }

/-- `MAX_BINARY_SIZE_BYTES` from `src/l_command/handlers/binary.py`. -/
def maxBinarySizeBytes : Nat := 10 * 1024 * 1024

/-- Result of running the `file --mime-encoding` subprocess in
`BinaryHandler.can_handle`: the reported encoding on success, or a
`CalledProcessError`/`TimeoutExpired` failure. -/
inductive FileCmdResult where
  | ok (encoding : String)
  | failed

/-- `BinaryHandler._is_binary_content`: read up to 8 KiB (`sample` is that
read, `none` when the read raises `OSError`); an unreadable or empty sample is
treated as non-binary, otherwise binary iff the sample contains a null byte. -/
def isBinaryContent (sample : Option (List Nat)) : Bool :=
  match sample with
  | none => false
  | some s => if s = [] then false else s.contains 0

/-- `BinaryHandler.can_handle` from `src/l_command/handlers/binary.py`.
Inputs: whether the path is a regular file, the `stat` size (`none` when
`stat` raises `OSError`), whether the `file` command is on the PATH, the
outcome of the `file` subprocess, and the 8 KiB content sample.  The second
component of the result records whether the `file` subprocess was spawned;
the size-ceiling and empty-file checks happen before it. -/
def binaryCanHandle (isFile : Bool) (statSize : Option Nat)
    (fileCmdAvail : Bool) (fileCmd : FileCmdResult)
    (sample : Option (List Nat)) : Bool × Bool :=
  if !isFile then (false, false)
  else
    match statSize with
    | none => (false, false)
    | some s =>
        if maxBinarySizeBytes < s then (false, false)
        else if s = 0 then (false, false)
        else if fileCmdAvail then
          match fileCmd with
          | FileCmdResult.ok enc =>
              if enc = "binary" || enc.startsWith "unknown-" then (true, true)
              else if enc = "us-ascii" || enc = "utf-8" || enc = "iso-8859-1"
                then (isBinaryContent sample, true)
              else (false, true)
          | FileCmdResult.failed => (isBinaryContent sample, true)
        else (isBinaryContent sample, false)

/-- Outcome of `BinaryHandler.handle`: nothing shown because `hexdump` is not
installed; content handed to a `less` pager via a pipe; content printed
directly to stdout; or a hexdump failure logged with nothing shown.  The
payload of `paged`/`direct` is the hexdump output (a list of lines of bytes),
which the code pipes or prints unaltered (the direct path decodes with
`errors="ignore"`; hexdump output is ASCII). -/
inductive BinaryRender where
  | toolMissing
  | paged (content : List (List Nat))
  | direct (content : List (List Nat))
  | directFailed
deriving DecidableEq

/-- Whether a `BinaryHandler.handle` outcome spawned a pager subprocess. -/
def BinaryRender.isPaged : BinaryRender → Bool
  | BinaryRender.paged _ => true
  | _ => false

/-- Whether a `BinaryHandler.handle` outcome shows the content of the file. -/
def BinaryRender.showsContent : BinaryRender → Bool
  | BinaryRender.paged _ => true
  | BinaryRender.direct _ => true
  | _ => false

/-- `BinaryHandler.handle` from `src/l_command/handlers/binary.py`.  Inputs:
whether `hexdump` and `less` are on the PATH, the terminal height (`none` when
`os.get_terminal_size` raises, which the code treats as infinite height), the
hexdump output `hexOut` (the same deterministic output feeds the counting run,
the pager pipe and the direct run) and the hexdump exit code for the direct run.
The code counts `len(hexOut)` lines, then pages iff the count exceeds the
terminal height and `less` is available; otherwise it prints the hexdump stdout
when hexdump exits 0 and only logs an error when it does not. -/
def binaryHandle (hexdumpAvail lessAvail : Bool) (termHeight : Option Nat)
    (hexOut : List (List Nat)) (hexExitCode : Nat) : BinaryRender :=
  if !hexdumpAvail then BinaryRender.toolMissing
  else
    let lineCount := hexOut.length
    let useLess := (match termHeight with
      | some h => decide (h < lineCount)
      | none => false) && lessAvail
    if useLess then BinaryRender.paged hexOut
    else if hexExitCode = 0 then BinaryRender.direct hexOut
    else BinaryRender.directFailed

/-- Output streams of the process. -/
inductive OutStream where
  | stdout
  | stderr
deriving DecidableEq

/-- Python binary-file line iteration (`for _ in f` on a file opened `"rb"`):
the byte string split into lines, each line keeping its terminating newline
byte (10), with a trailing unterminated segment forming a final line. -/
def splitLines : List Nat → List (List Nat)
  | [] => []
  | b :: rest =>
      if b = 10 then [b] :: splitLines rest
      else
        match splitLines rest with
        | [] => [[b]]
        | l :: ls => (b :: l) :: ls

/-- The notion of the spec — the number of line-terminator occurrences in a
file — stated from the words of the spec for comparison with `countLines`. -/
def specNewlineOccurrences (bs : List Nat) : Nat :=
  (bs.filter (fun b => b == 10)).length

/-- `count_lines` from `src/l_command/cli.py`: sum 1 for every line produced
by iterating the file opened in binary mode; on any exception print an
`Error counting lines` message (via `print`, i.e. to stdout) and return 0.
The input is the bytes of the file, `none` when opening/reading raises. -/
def countLines (file : Option (List Nat)) : Nat × List (OutStream × String) :=
  match file with
  | some bs => ((splitLines bs).length, [])
  | none => (0, [(OutStream.stdout, "Error counting lines: <exception>")])

/-- Result of one `main()` invocation: exit code, messages written by `main`
itself (with their stream), and the argv of each spawned subprocess. -/
structure CliResult where
  exitCode : Nat
  messages : List (OutStream × String)
  procs : List (List String)
deriving DecidableEq

/-- `main` from `src/l_command/cli.py`.  `lineThreshold` stands for the
`LINE_THRESHOLD` constant the module imports (absent from `constants.py` under
`src/`).  A missing path prints `Error: Path not found: ...` through a plain
`print` call — that is, to stdout — and returns 1 before any handler or
subprocess runs; a directory spawns `ls -la`; a file spawns `cat` or
`less -RFX` according to `count_lines` versus the threshold. -/
def cliMain (lineThreshold : Nat) (pathStr : String)
    (pathExists isDir : Bool) (fileBytes : Option (List Nat)) : CliResult :=
  if !pathExists then
    { exitCode := 1,
      messages := [(OutStream.stdout, "Error: Path not found: " ++ pathStr)],
      procs := [] }
  else if isDir then
    { exitCode := 0, messages := [],
      procs := [["ls", "-la", "--color=auto", pathStr]] }
  else
    let c := countLines fileBytes
    if c.1 ≤ lineThreshold then
      { exitCode := 0, messages := c.2, procs := [["cat", pathStr]] }
    else
      { exitCode := 0, messages := c.2, procs := [["less", "-RFX", pathStr]] }

/-- Modelled from the spec: the registry-driven dispatcher and the
Default/fallback handler are not under `src/` (`src/l_command/cli.py` is an
earlier revision without registry dispatch, and `handlers/default.py` /
`handlers/base.py` are absent; only their tests are).  Per spec §4.2 the
dispatcher walks the ordered registry, the first handler whose capability
predicate holds runs, and the predicate of the fallback handler is always true
for an existing path.  The input pairs each handler name with the value of its
predicate on the target path; the result is the name of the handler that runs. -/
def dispatchSpec (handlers : List (String × Bool)) : Option String :=
  (handlers.find? (fun p => p.2)).map (fun p => p.1)

/-- Modelled from the spec: exit code of a dispatch (spec §4.2/§7) — 0 when
some handler ran (fallbacks included), failure only when no handler matched. -/
def dispatchExitCode (handlers : List (String × Bool)) : Nat :=
  match dispatchSpec handlers with
  | some _ => 0
  | none => 1

lemma mem_insertDesc {α : Type} (key : α → Int) (x : α) (l : List α) (a : α) :
    a ∈ insertDesc key x l ↔ a = x ∨ a ∈ l := by
  induction l with
  | nil => simp [insertDesc]
  | cons y ys ih =>
    by_cases h : key y ≤ key x
    · simp [insertDesc, h]
    · simp only [insertDesc, if_neg h, List.mem_cons, ih]
      tauto

lemma pairwise_insertDesc {α : Type} (key : α → Int) (x : α) (l : List α)
    (hl : l.Pairwise (fun a b => key b ≤ key a)) :
    (insertDesc key x l).Pairwise (fun a b => key b ≤ key a) := by
  induction l with
  | nil => simp [insertDesc]
  | cons y ys ih =>
    rcases List.pairwise_cons.mp hl with ⟨hy, hys⟩
    by_cases h : key y ≤ key x
    · simp only [insertDesc, if_pos h]
      refine List.pairwise_cons.mpr ⟨?_, hl⟩
      intro z hz
      rcases List.mem_cons.mp hz with rfl | hz'
      · exact h
      · exact le_trans (hy z hz') h
    · simp only [insertDesc, if_neg h]
      refine List.pairwise_cons.mpr ⟨?_, ih hys⟩
      intro z hz
      rcases (mem_insertDesc key x ys z).mp hz with rfl | hz'
      · exact le_of_lt (lt_of_not_le h)
      · exact hy z hz'

lemma pairwise_sortDesc {α : Type} (key : α → Int) (l : List α) :
    (sortDesc key l).Pairwise (fun a b => key b ≤ key a) := by
  induction l with
  | nil => simp [sortDesc]
  | cons x xs ih => exact pairwise_insertDesc key x _ ih

lemma filter_insertDesc_neg {α : Type} (key : α → Int) (q : α → Bool) (x : α)
    (l : List α) (hqx : q x = false) :
    (insertDesc key x l).filter q = l.filter q := by
  induction l with
  | nil => simp [insertDesc, hqx]
  | cons y ys ih =>
    by_cases h : key y ≤ key x
    · simp [insertDesc, h, List.filter_cons, hqx]
    · simp [insertDesc, h, List.filter_cons, ih]

lemma filter_insertDesc_pos {α : Type} (key : α → Int) (q : α → Bool) (x : α)
    (l : List α) (hqx : q x = true)
    (hl : l.Pairwise (fun a b => key b ≤ key a)) :
    (insertDesc key x l).filter q = insertDesc key x (l.filter q) := by
  induction l with
  | nil => simp [insertDesc, hqx]
  | cons y ys ih =>
    rcases List.pairwise_cons.mp hl with ⟨hy, hys⟩
    by_cases h : key y ≤ key x
    · by_cases hqy : q y = true
      · simp [insertDesc, h, List.filter_cons, hqx, hqy]
      · have hall : ∀ z ∈ ys.filter q, key z ≤ key x := fun z hz =>
          le_trans (hy z (List.mem_of_mem_filter hz)) h
        cases hfy : ys.filter q with
        | nil => simp [insertDesc, h, List.filter_cons, hqx, hqy, hfy]
        | cons z zs =>
          have hz : key z ≤ key x := hall z (hfy ▸ List.mem_cons_self z zs)
          simp [insertDesc, h, List.filter_cons, hqx, hqy, hfy, hz]
    · by_cases hqy : q y = true
      · simp [insertDesc, h, List.filter_cons, hqy, ih hys]
      · simp [insertDesc, h, List.filter_cons, hqy, ih hys]

lemma filter_sortDesc {α : Type} (key : α → Int) (q : α → Bool) (l : List α) :
    (sortDesc key l).filter q = sortDesc key (l.filter q) := by
  induction l with
  | nil => rfl
  | cons x xs ih =>
    by_cases hqx : q x = true
    · rw [sortDesc, filter_insertDesc_pos key q x _ hqx (pairwise_sortDesc key xs),
        ih, List.filter_cons, if_pos hqx, sortDesc]
    · rw [sortDesc, filter_insertDesc_neg key q x _ (by simpa using hqx), ih,
        List.filter_cons, if_neg hqx]

lemma sortDesc_const {α : Type} (key : α → Int) (v : Int) (l : List α)
    (h : ∀ x ∈ l, key x = v) : sortDesc key l = l := by
  induction l with
  | nil => rfl
  | cons x xs ih =>
    rw [sortDesc, ih (fun z hz => h z (List.mem_cons_of_mem _ hz))]
    cases xs with
    | nil => rfl
    | cons y ys =>
      have hxy : key y ≤ key x := by
        rw [h y (by simp), h x (by simp)]
      simp [insertDesc, hxy]

lemma dictGet_dictSet {β : Type} (d : List (String × β)) (k k' : String) (v : β) :
    dictGet (dictSet d k v) k' = if k = k' then some v else dictGet d k' := by
  induction d with
  | nil => rfl
  | cons p rest ih =>
    by_cases hak : p.1 = k
    · by_cases hkk : k = k'
      · simp [dictSet, dictGet, hak, hkk]
      · simp [dictSet, dictGet, hak, hkk]
    · by_cases hak' : p.1 = k'
      · have hne : ¬ k = k' := fun h => hak (h ▸ hak')
        have hne' : ¬ k' = k := fun h => hne h.symm
        simp [dictSet, dictGet, hak, hak', hne, hne']
      · simp [dictSet, dictGet, hak, hak', ih]

/-- C1: for every configuration, the handler list returned by `get_handlers`
is sorted in descending order of effective priority (the configured override
when set, the default priority of the handler otherwise), and handlers with equal
effective priority keep the static default insertion order: for each priority
value, the handlers of that effective priority appear exactly as in the
statically ordered enabled-handler list. -/
theorem getHandlers_sorted_stable (cfg : Config) :
    (getHandlers cfg).Pairwise (fun a b => effPriority cfg b ≤ effPriority cfg a)
    ∧ ∀ v : Int,
        (getHandlers cfg).filter (fun h => effPriority cfg h == v)
          = (enabledHandlers cfg).filter (fun h => effPriority cfg h == v) := by
  constructor
  · exact pairwise_sortDesc _ _
  · intro v
    rw [getHandlers, filter_sortDesc]
    exact sortDesc_const _ v _ (fun x hx => by
      have hq := List.of_mem_filter hx
      exact eq_of_beq hq)

/-- C2: resolving the registry with the default configuration returns all 12
default handlers — in fact exactly the static map order, since the default
priorities are already descending — with the directory handler (priority 100)
first and the default/fallback handler (priority 0) last. -/
theorem getHandlers_default_config :
    getHandlers configDefault = handlerMap
    ∧ handlerMap.length = 12
    ∧ (getHandlers configDefault).head? = some ⟨"directory", 100⟩
    ∧ (getHandlers configDefault).getLast? = some ⟨"default", 0⟩ :=
  ⟨rfl, rfl, rfl, rfl⟩

/-- C3: for every configuration, marking a handler `X` as disabled removes
exactly the handler named `X` from the output of `get_handlers` and leaves the
relative order of all remaining handlers unchanged compared to the same
configuration with `X` enabled: the disabled output is the enabled output
with the `X`-named handler filtered out. -/
theorem disable_handler_removes_exactly (cfg : Config) (X : String) :
    getHandlers (setHandlerEnabled cfg X false)
      = (getHandlers (setHandlerEnabled cfg X true)).filter
          (fun h => h.name != X) := by
  have hkey : effPriority (setHandlerEnabled cfg X false)
      = effPriority (setHandlerEnabled cfg X true) := by
    funext h
    unfold effPriority setHandlerEnabled
    simp only [dictGet_dictSet]
    by_cases hx : X = h.name <;> simp [hx]
  have hen : enabledHandlers (setHandlerEnabled cfg X false)
      = (enabledHandlers (setHandlerEnabled cfg X true)).filter
          (fun h => h.name != X) := by
    unfold enabledHandlers
    rw [List.filter_filter]
    apply List.filter_congr
    intro h _
    unfold handlerEnabled setHandlerEnabled
    simp only [dictGet_dictSet]
    by_cases hx : X = h.name
    · simp [hx]
    · have : h.name ≠ X := fun hc => hx hc.symm
      simp [hx, this]
  rw [getHandlers, getHandlers, hkey, hen, filter_sortDesc]

/-- C4: for a source of `L` lines rendered with terminal height `H`, when
`L ≤ H` the handler spawns no pager and (when hexdump succeeds) writes the
content directly to stdout; when `L > H` (and the pager binary is present,
the environment the claim describes) a pager subprocess is spawned and
receives the unmodified content as its input. -/
theorem smart_pager_decision (lessAvail : Bool) (H : Nat)
    (hexOut : List (List Nat)) (rc : Nat) :
    (hexOut.length ≤ H →
      (binaryHandle true lessAvail (some H) hexOut rc).isPaged = false
      ∧ binaryHandle true lessAvail (some H) hexOut 0
          = BinaryRender.direct hexOut)
    ∧ (H < hexOut.length → lessAvail = true →
      binaryHandle true lessAvail (some H) hexOut rc
        = BinaryRender.paged hexOut) := by
  constructor
  · intro hle
    have hlt : ¬ H < hexOut.length := not_lt.mpr hle
    constructor
    · simp only [binaryHandle, Bool.not_true, Bool.false_eq_true, if_false,
        decide_eq_true_eq]
      simp [hlt]
      split <;> rfl
    · simp [binaryHandle, hlt]
  · intro hlt hless
    subst hless
    simp [binaryHandle, hlt]

/-- Witness for C4 at concrete inputs: a 2-line source with height 5 goes
direct, and with height 1 it is paged with the same content. -/
theorem smart_pager_decision_witness :
    (([[72], [73]] : List (List Nat)).length ≤ 5
      ∧ binaryHandle true false (some 5) [[72], [73]] 0
          = BinaryRender.direct [[72], [73]])
    ∧ (1 < ([[72], [73]] : List (List Nat)).length
      ∧ binaryHandle true true (some 1) [[72], [73]] 0
          = BinaryRender.paged [[72], [73]]) :=
  ⟨⟨by decide, ((smart_pager_decision false 5 [[72], [73]] 0).1 (by decide)).2⟩,
   ⟨by decide, (smart_pager_decision true 1 [[72], [73]] 0).2 (by decide) rfl⟩⟩

/-- C6: for every file whose byte size exceeds the 10 MiB binary ceiling,
`BinaryHandler.can_handle` returns false without spawning the `file`
subprocess (the ceiling check precedes it), so dispatch falls through to the
default/fallback handler and the invocation exits 0. -/
theorem size_ceiling_blocks_subprocess (isFile fileCmdAvail : Bool)
    (fileCmd : FileCmdResult) (sample : Option (List Nat)) (s : Nat)
    (hs : maxBinarySizeBytes < s) :
    binaryCanHandle isFile (some s) fileCmdAvail fileCmd sample = (false, false)
    ∧ dispatchSpec
        [("binary",
          (binaryCanHandle isFile (some s) fileCmdAvail fileCmd sample).1),
         ("default", true)] = some "default"
    ∧ dispatchExitCode
        [("binary",
          (binaryCanHandle isFile (some s) fileCmdAvail fileCmd sample).1),
         ("default", true)] = 0 := by
  have h1 : binaryCanHandle isFile (some s) fileCmdAvail fileCmd sample
      = (false, false) := by
    cases isFile <;> simp [binaryCanHandle, hs]
  refine ⟨h1, ?_, ?_⟩ <;> rw [h1] <;> rfl

/-- Witness for C6 at a concrete input: a 10 MiB + 1 byte file that the
`file` command would even have classified as binary. -/
theorem size_ceiling_blocks_subprocess_witness :
    maxBinarySizeBytes < 10485761
    ∧ (binaryCanHandle true (some 10485761) true (FileCmdResult.ok "binary")
          (some [0]) = (false, false)
       ∧ dispatchSpec
           [("binary",
             (binaryCanHandle true (some 10485761) true (FileCmdResult.ok "binary")
               (some [0])).1),
            ("default", true)] = some "default"
       ∧ dispatchExitCode
           [("binary",
             (binaryCanHandle true (some 10485761) true (FileCmdResult.ok "binary")
               (some [0])).1),
            ("default", true)] = 0) :=
  ⟨by decide,
   size_ceiling_blocks_subprocess true true (FileCmdResult.ok "binary")
     (some [0]) 10485761 (by decide)⟩

/-- C8 counterexample: with `hexdump` (a required rendering tool) missing,
`BinaryHandler.handle` logs and returns without delegating to any other
rendering strategy — the content is not shown, so output is dropped. -/
theorem missing_hexdump_drops_output :
    binaryHandle false true (some 3) [[104, 105]] 0 = BinaryRender.toolMissing
    ∧ (binaryHandle false true (some 3) [[104, 105]] 0).showsContent = false :=
  ⟨rfl, rfl⟩

/-- C8 amended: a missing pager (`less` not found) results in direct
streaming of the same bytes to stdout — for that tool, output is never
dropped — whatever the terminal height. -/
theorem missing_pager_streams_directly (termHeight : Option Nat)
    (hexOut : List (List Nat)) :
    binaryHandle true false termHeight hexOut 0 = BinaryRender.direct hexOut := by
  cases termHeight <;> simp [binaryHandle]

/-- C5: for every path that does not exist, `main` returns exit status 1 and
spawns no subprocess (so no handler/external tool runs) — but the
human-readable diagnostic is written by a plain `print`, i.e. to standard
output, not to the error stream of the process (the repository test
`tests/test_cli.py::test_main_with_nonexistent_path` asserts it appears on
`captured.err`). -/
theorem path_not_found_stdout (lineThreshold : Nat) (pathStr : String)
    (isDir : Bool) (fileBytes : Option (List Nat)) :
    cliMain lineThreshold pathStr false isDir fileBytes
      = { exitCode := 1,
          messages := [(OutStream.stdout, "Error: Path not found: " ++ pathStr)],
          procs := [] } := rfl

lemma splitLines_ne_nil (b : Nat) (rest : List Nat) :
    splitLines (b :: rest) ≠ [] := by
  by_cases hb : b = 10
  · simp [splitLines, hb]
  · simp only [splitLines, if_neg hb]
    cases splitLines rest <;> simp

lemma splitLines_cons (b : Nat) (rest : List Nat) :
    splitLines (b :: rest)
      = if b = 10 then [b] :: splitLines rest
        else match splitLines rest with
          | [] => [[b]]
          | l :: ls => (b :: l) :: ls := rfl

lemma splitLines_length (bs : List Nat) :
    (splitLines bs).length
      = specNewlineOccurrences bs
        + (if bs.getLast? = some 10 ∨ bs = [] then 0 else 1) := by
  induction bs with
  | nil => rfl
  | cons b rest ih =>
    rw [splitLines_cons]
    by_cases hb : b = 10
    · rw [if_pos hb]
      subst hb
      cases rest with
      | nil => rfl
      | cons c cs =>
        have hocc : specNewlineOccurrences (10 :: c :: cs)
            = 1 + specNewlineOccurrences (c :: cs) := by
          simp [specNewlineOccurrences, List.filter_cons]
          omega
        have hlast : ((10 : Nat) :: c :: cs).getLast? = (c :: cs).getLast? :=
          List.getLast?_cons_cons
        rw [List.length_cons, ih, hocc, hlast]
        have hcond : ((c :: cs).getLast? = some 10 ∨ c :: cs = [])
            ↔ ((c :: cs).getLast? = some 10 ∨ (10 : Nat) :: c :: cs = []) := by
          simp
        rw [if_congr hcond rfl rfl]
        omega
    · rw [if_neg hb]
      cases rest with
      | nil =>
        simp [specNewlineOccurrences, hb]
        rfl
      | cons c cs =>
        cases hsp : splitLines (c :: cs) with
        | nil => exact absurd hsp (splitLines_ne_nil c cs)
        | cons l ls =>
          rw [hsp] at ih
          have hocc : specNewlineOccurrences (b :: c :: cs)
              = specNewlineOccurrences (c :: cs) := by
            simp [specNewlineOccurrences, List.filter_cons, hb]
          have hlast : (b :: c :: cs).getLast? = (c :: cs).getLast? :=
            List.getLast?_cons_cons
          rw [hocc, hlast]
          have hcond : ((c :: cs).getLast? = some 10 ∨ b :: c :: cs = [])
              ↔ ((c :: cs).getLast? = some 10 ∨ c :: cs = []) := by
            simp
          rw [if_congr hcond rfl rfl]
          show ((b :: l) :: ls).length = _
          rw [List.length_cons] at ih ⊢
          omega

/-- C7 counterexample: the file `abc` (bytes 97 98 99, no newline) has zero
line-terminator occurrences, yet `count_lines` returns 1. -/
theorem count_lines_counterexample :
    (countLines (some [97, 98, 99])).1 = 1
    ∧ specNewlineOccurrences [97, 98, 99] = 0
    ∧ (countLines (some [97, 98, 99])).1 ≠ specNewlineOccurrences [97, 98, 99] :=
  ⟨rfl, rfl, by decide⟩

/-- C7 amended: for every readable file, `count_lines` returns the Python
line count — the number of newline occurrences, plus one when the file is
nonempty and does not end with a newline — counted at the byte level; for an
unreadable or missing file it returns 0 and reports a diagnostic instead of
raising. -/
theorem count_lines_amended :
    (∀ bs : List Nat,
      countLines (some bs)
        = (specNewlineOccurrences bs
            + (if bs.getLast? = some 10 ∨ bs = [] then 0 else 1), []))
    ∧ countLines none
        = (0, [(OutStream.stdout, "Error counting lines: <exception>")]) := by
  refine ⟨fun bs => ?_, rfl⟩
  have := splitLines_length bs
  simp [countLines, this]

/-- C9 counterexample: a boolean `priority` (a wrong-typed field — TOML
booleans are not integers) is not replaced by the default priority of the handler.
Loading a config with `priority = true` for the binary handler yields
priority 1, while the default — which the claim requires — is 60. -/
theorem wrong_type_priority_counterexample :
    dictGet (loadConfigFromDict
        [("handlers",
          Toml.table [("binary", Toml.table [("priority", Toml.bool true)])])]).handlers
      "binary" = some { enabled := true, priority := some 1, options := [] }
    ∧ dictGet configDefault.handlers "binary"
        = some { enabled := true, priority := some 60, options := [] }
    ∧ some (1 : Int) ≠ some (60 : Int) :=
  ⟨rfl, rfl, by decide⟩

/-- C9 amended: for every handler entry (a TOML table), validation never
rejects the entry; each field is validated on its own, the other fields being
governed only by their own raw values: a non-bool `enabled` becomes `true`, a
`priority` that is neither an integer nor a boolean becomes unset (so the
default priority of the handler applies after the merge; booleans pass the
`isinstance(int)` check and are accepted as integers), and a non-table
`options` becomes empty, while correctly typed and absent fields keep their
value or default. -/
theorem validate_field_by_field (name : String) (kvs : List (String × Toml)) :
    ∃ hc, validateHandlerConfig name (Toml.table kvs) = some hc
      ∧ (∀ v, dictGet kvs "enabled" = some v → (∀ b, v ≠ Toml.bool b) →
          hc.enabled = true)
      ∧ (∀ b, dictGet kvs "enabled" = some (Toml.bool b) → hc.enabled = b)
      ∧ (dictGet kvs "enabled" = none → hc.enabled = true)
      ∧ (∀ v, dictGet kvs "priority" = some v → (∀ n, v ≠ Toml.int n) →
          (∀ b, v ≠ Toml.bool b) → hc.priority = none)
      ∧ (∀ n, dictGet kvs "priority" = some (Toml.int n) → hc.priority = some n)
      ∧ (dictGet kvs "priority" = none → hc.priority = none)
      ∧ (∀ v, dictGet kvs "options" = some v → (∀ t, v ≠ Toml.table t) →
          hc.options = [])
      ∧ (∀ t, dictGet kvs "options" = some (Toml.table t) → hc.options = t)
      ∧ (dictGet kvs "options" = none → hc.options = []) := by
  refine ⟨_, rfl, ?_, ?_, ?_, ?_, ?_, ?_, ?_, ?_, ?_⟩
  · intro v hv hnb
    simp only [hv, Option.getD_some]
  · intro b hv
    simp only [hv, Option.getD_some]
  · intro hv
    simp only [hv, Option.getD_none]
  · intro v hv hnn hnb
    simp only [hv]
  · intro n hv
    simp only [hv]
  · intro hv
    simp only [hv]
  · intro v hv hnt
    simp only [hv, Option.getD_some]
  · intro t hv
    simp only [hv, Option.getD_some]
  · intro hv
    simp only [hv, Option.getD_none]

/-- Witness for the amended C9 theorem at a concrete entry whose three fields
are all wrong-typed: each falls back to its own default and the entry is
kept. -/
theorem validate_field_by_field_witness :
    ∃ hc, validateHandlerConfig "json"
        (Toml.table [("enabled", Toml.str "yes"), ("priority", Toml.str "high"),
                     ("options", Toml.str "x")]) = some hc
      ∧ hc.enabled = true ∧ hc.priority = none ∧ hc.options = [] := by
  obtain ⟨hc, h1, h2, _, _, h5, _, _, h8, _, _⟩ :=
    validate_field_by_field "json"
      [("enabled", Toml.str "yes"), ("priority", Toml.str "high"),
       ("options", Toml.str "x")]
  exact ⟨hc, h1, h2 _ rfl (fun b h => Toml.noConfusion h),
    h5 _ rfl (fun n h => Toml.noConfusion h) (fun b h => Toml.noConfusion h),
    h8 _ rfl (fun t h => Toml.noConfusion h)⟩

/-- C10: a boolean `priority` field passes `isinstance(priority, int)` (Python
booleans are integers) and is accepted, `True` as priority 1 and `False` as
priority 0, rather than being rejected and replaced by the default. -/
theorem bool_priority_accepted (name : String) (kvs : List (String × Toml))
    (b : Bool) (h : dictGet kvs "priority" = some (Toml.bool b)) :
    ∃ hc, validateHandlerConfig name (Toml.table kvs) = some hc
      ∧ hc.priority = some (if b then (1 : Int) else 0) := by
  refine ⟨_, rfl, ?_⟩
  simp only [h]

/-- Witness for C10 at the concrete entry with `priority = true`. -/
theorem bool_priority_accepted_witness :
    dictGet [("priority", Toml.bool true)] "priority" = some (Toml.bool true)
    ∧ ∃ hc, validateHandlerConfig "json"
          (Toml.table [("priority", Toml.bool true)]) = some hc
        ∧ hc.priority = some (if true then (1 : Int) else 0) :=
  ⟨rfl, bool_priority_accepted "json" [("priority", Toml.bool true)] true rfl⟩

end LCmd
